import Mathlib

/-!
Verification of the nuclear binding-energy module (`src/nuclear/binding_energy.py`)
of the pysics repository.

Modelling conventions:
* Python integers are `ℤ`; Python floats are idealised as real numbers `ℝ`
  (float rounding is below every tolerance the specification talks about).
* `A**(2/3)`, `A**(1/3)` are real rpow; `math.sqrt` is `Real.sqrt`.
* Two layers are given for each numeric function: a total pure function on `ℝ`
  (the value computed when no arithmetic error occurs), and an `Except PyErr`
  version reproducing Python's error behaviour (ZeroDivisionError on division
  by zero, ValueError from `math.sqrt` of a negative number, explicit
  `raise ValueError` for unknown option strings, and the escape of
  `(negative) ** fractional` into a complex — hence non-real — result).
-/

noncomputable section

/-! ### Physical constants

Modelled from the spec: the repository imports `..constants` (the Physical
Constants Provider of spec section 6), whose source file is not part of the
sources given here.  The spec names the constants but fixes no numeric values;
standard values are used.  Every claim proved below depends at most on the
benign facts visible from the spec (for instance that the atomic-mass-unit
energy equivalent is not `1` and the electron rest mass is not `0`). -/

def PROTON_MASS_MEV : ℝ := 938.272

def NEUTRON_MASS_MEV : ℝ := 939.565

def ELECTRON_MASS_MEV : ℝ := 0.511

def ATOMIC_MASS_UNIT_MEV : ℝ := 931.494

def COULOMB_CONSTANT : ℝ := 8.9875517923e9

def ELEMENTARY_CHARGE : ℝ := 1.602176634e-19

def ELECTRON_VOLT : ℝ := 1.602176634e-19

def NUCLEAR_RADIUS_CONSTANT : ℝ := 1.2

/-! ### The SEMF engine (pure layer), lines 46-71 and 95-113 of the source -/

/-- Embeds `binding_energy_semf` (source lines 95-113): the five-term
semi-empirical mass formula.  The pairing term is the inline
`if Z % 2 == 0 and (A - Z) % 2 == 0 ... elif ... else delta = 0` of the
source; `%` on `ℤ` agrees with Python `%` for the modulus `2`. -/
def binding_energy_semf (A Z : ℤ) : ℝ :=
  15.75 * (A : ℝ) - 17.8 * (A : ℝ) ^ ((2 : ℝ) / 3)
    - 0.711 * (Z : ℝ) ^ 2 / (A : ℝ) ^ ((1 : ℝ) / 3)
    - 23.7 * ((A : ℝ) - 2 * (Z : ℝ)) ^ 2 / (A : ℝ)
    + (if Z % 2 = 0 ∧ (A - Z) % 2 = 0 then 11.18 / Real.sqrt (A : ℝ)
       else if Z % 2 = 1 ∧ (A - Z) % 2 = 1 then -(11.18 / Real.sqrt (A : ℝ))
       else 0)

/-- Embeds `semi_empirical_mass_formula` (source lines 46-71).  The source
recomputes the binding energy inline with an expression identical, term for
term, to the body of `binding_energy_semf`; the embedding therefore reuses
`binding_energy_semf` for that inline value. -/
def semi_empirical_mass_formula (A Z : ℤ) : ℝ :=
  ((Z : ℝ) * PROTON_MASS_MEV + ((A : ℝ) - (Z : ℝ)) * NEUTRON_MASS_MEV
    - binding_energy_semf A Z) / ATOMIC_MASS_UNIT_MEV

/-! ### Decomposition functions, source lines 153-197 -/

/-- Embeds `nuclear_radius` (source lines 153-156). -/
def nuclear_radius (A : ℤ) : ℝ :=
  NUCLEAR_RADIUS_CONSTANT * (A : ℝ) ^ ((1 : ℝ) / 3)

/-- Embeds `coulomb_energy` (source lines 171-174): computed from physical
constants, `(3/5) * k * Z**2 * e**2 / R / eV / 1e6` with
`R = nuclear_radius(A) * 1e-15`. -/
def coulomb_energy (A Z : ℤ) : ℝ :=
  (3 / 5) * COULOMB_CONSTANT * (Z : ℝ) ^ 2 * ELEMENTARY_CHARGE ^ 2
    / (nuclear_radius A * 1e-15) / ELECTRON_VOLT / 1e6

/-- Embeds `surface_energy` (source lines 177-180). -/
def surface_energy (A : ℤ) : ℝ :=
  17.8 * (A : ℝ) ^ ((2 : ℝ) / 3)

/-- Embeds `asymmetry_energy` (source lines 183-186). -/
def asymmetry_energy (A Z : ℤ) : ℝ :=
  23.7 * ((A : ℝ) - 2 * (Z : ℝ)) ^ 2 / (A : ℝ)

/-- Embeds `pairing_energy` (source lines 189-197); the source sets
`N = A - Z` and branches on `Z % 2` and `N % 2`. -/
def pairing_energy (A Z : ℤ) : ℝ :=
  if Z % 2 = 0 ∧ (A - Z) % 2 = 0 then 11.18 / Real.sqrt (A : ℝ)
  else if Z % 2 = 1 ∧ (A - Z) % 2 = 1 then -(11.18 / Real.sqrt (A : ℝ))
  else 0

/-! ### Derived observables (pure layer), source lines 74-92, 125-138, 253-257 -/

/-- Embeds `separation_energy` (source lines 74-92), pure layer: the value
returned on the three recognised particle strings.  The `else: raise
ValueError` branch is modelled by the junk value `0` here and by a genuine
error in `separation_energyE` below. -/
def separation_energy (A Z : ℤ) (particle : String) : ℝ :=
  if particle = "neutron" then
    binding_energy_semf A Z - binding_energy_semf (A - 1) Z
  else if particle = "proton" then
    binding_energy_semf A Z - binding_energy_semf (A - 1) (Z - 1)
  else if particle = "alpha" then
    binding_energy_semf A Z - binding_energy_semf (A - 4) (Z - 2) - 28.3
  else 0

/-- Embeds `two_neutron_separation_energy` (source lines 253-257). -/
def two_neutron_separation_energy (A Z : ℤ) : ℝ :=
  binding_energy_semf A Z - binding_energy_semf (A - 2) Z

/-- Embeds `q_value_beta_decay` (source lines 125-138), pure layer.  Note the
source computes `(M_parent - M_daughter - 2 * ELECTRON_MASS_MEV) *
ATOMIC_MASS_UNIT_MEV` in the `beta+` branch: the electron term is subtracted
before the u-to-MeV conversion.  The `else: raise ValueError` branch is junk
`0` here and a genuine error in `q_value_beta_decayE` below. -/
def q_value_beta_decay (A Z : ℤ) (decay_type : String) : ℝ :=
  if decay_type = "beta-" then
    (semi_empirical_mass_formula A Z - semi_empirical_mass_formula A (Z + 1))
      * ATOMIC_MASS_UNIT_MEV
  else if decay_type = "beta+" then
    (semi_empirical_mass_formula A Z - semi_empirical_mass_formula A (Z - 1)
      - 2 * ELECTRON_MASS_MEV) * ATOMIC_MASS_UNIT_MEV
  else 0

/-! ### Python arithmetic-error layer

The module has no input validation: invalid inputs surface as arithmetic
errors of the Python runtime.  `PyErr` tags the possible outcomes:
* `zeroDivision`: float division by `0.0` (ZeroDivisionError);
* `sqrtDomain`: `math.sqrt` of a negative number (ValueError, math domain);
* `complexPow`: `A ** (2/3)` with negative `A` — Python returns a complex
  number, so the computation leaves the reals; tagged as a non-real outcome;
* `valueError msg`: an explicit `raise ValueError(msg)` in the source;
* `invalidNuclide`: the explicit "invalid nuclide" domain-error condition the
  specification demands; no code path of the source ever produces it. -/

inductive PyErr where
  | zeroDivision
  | sqrtDomain
  | complexPow
  | valueError (msg : String)
  | invalidNuclide
deriving DecidableEq

/-- Embeds `binding_energy_semf` (source lines 95-113) with Python error
semantics.  The source first evaluates the pairing `if`/`elif`/`else`: in the
first two branches `math.sqrt(A)` raises for `A < 0` and the division
`11.18 / math.sqrt(A)` raises for `A = 0`; in the `delta = 0` branch the body
expression then hits `A ** (2/3)` (complex for `A < 0`) and
`Z ** 2 / A ** (1/3)` (division by `0.0` for `A = 0`).  For `A ≥ 1` every
operation is defined and the result is the pure value. -/
def semfE (A Z : ℤ) : Except PyErr ℝ :=
  if (Z % 2 = 0 ∧ (A - Z) % 2 = 0) ∨ (Z % 2 = 1 ∧ (A - Z) % 2 = 1) then
    if A < 0 then .error .sqrtDomain
    else if A = 0 then .error .zeroDivision
    else .ok (binding_energy_semf A Z)
  else
    if A < 0 then .error .complexPow
    else if A = 0 then .error .zeroDivision
    else .ok (binding_energy_semf A Z)

/-- Embeds `semi_empirical_mass_formula` (source lines 46-71) with Python
error semantics: the inline binding-energy computation is identical to
`binding_energy_semf`, and the subsequent mass conversion is error-free. -/
def semi_empirical_mass_formulaE (A Z : ℤ) : Except PyErr ℝ :=
  (semfE A Z).map fun BE =>
    ((Z : ℝ) * PROTON_MASS_MEV + ((A : ℝ) - (Z : ℝ)) * NEUTRON_MASS_MEV - BE)
      / ATOMIC_MASS_UNIT_MEV

/-- Embeds `separation_energy` (source lines 74-92) with Python error
semantics, including the `raise ValueError(f"Unknown particle type:
{particle}")` of the final `else`. -/
def separation_energyE (A Z : ℤ) (particle : String) : Except PyErr ℝ :=
  if particle = "neutron" then do
    let BE_initial ← semfE A Z
    let BE_final ← semfE (A - 1) Z
    pure (BE_initial - BE_final)
  else if particle = "proton" then do
    let BE_initial ← semfE A Z
    let BE_final ← semfE (A - 1) (Z - 1)
    pure (BE_initial - BE_final)
  else if particle = "alpha" then do
    let BE_initial ← semfE A Z
    let BE_final ← semfE (A - 4) (Z - 2)
    pure (BE_initial - BE_final - 28.3)
  else .error (.valueError ("Unknown particle type: " ++ particle))

/-- Embeds `q_value_beta_decay` (source lines 125-138) with Python error
semantics, including the `raise ValueError(f"Unknown decay type:
{decay_type}")` of the final `else`. -/
def q_value_beta_decayE (A Z : ℤ) (decay_type : String) : Except PyErr ℝ :=
  if decay_type = "beta-" then do
    let M_parent ← semi_empirical_mass_formulaE A Z
    let M_daughter ← semi_empirical_mass_formulaE A (Z + 1)
    pure ((M_parent - M_daughter) * ATOMIC_MASS_UNIT_MEV)
  else if decay_type = "beta+" then do
    let M_parent ← semi_empirical_mass_formulaE A Z
    let M_daughter ← semi_empirical_mass_formulaE A (Z - 1)
    pure ((M_parent - M_daughter - 2 * ELECTRON_MASS_MEV) * ATOMIC_MASS_UNIT_MEV)
  else .error (.valueError ("Unknown decay type: " ++ decay_type))

/-! ### Stability search, source lines 200-215 and 260-277 -/

/-- One step of the inner loop of `valley_of_stability` (source lines
207-211): state `(best_Z, min_mass)` with `min_mass = none` for the initial
`float('inf')`.  Since every computed mass is a finite real, the comparison
`mass < float('inf')` of the first iteration is always true, so the `none`
state always updates. -/
def valleyStep (A : ℤ) (acc : ℤ × Option ℝ) (Z : ℤ) : ℤ × Option ℝ :=
  match acc with
  | (_, none) => (Z, some (semi_empirical_mass_formula A Z))
  | (bZ, some m) =>
      if semi_empirical_mass_formula A Z < m then
        (Z, some (semi_empirical_mass_formula A Z))
      else (bZ, some m)

/-- The `Z` values scanned for a given `A`: Python `range(1, A)`. -/
def zRange (A : ℤ) : List ℤ :=
  (List.range (A - 1).toNat).map fun (i : ℕ) => 1 + (i : ℤ)

/-- The inner loop of `valley_of_stability` for one `A` (source lines
204-211), starting from `min_mass = float('inf')`, `best_Z = 1`. -/
def bestZ (A : ℤ) : ℤ :=
  ((zRange A).foldl (valleyStep A) (1, none)).1

/-- Embeds `valley_of_stability` (source lines 200-215): one `best_Z` per
`A` in the inclusive range, in increasing order of `A`. -/
def valley_of_stability (r : ℤ × ℤ) : List ℤ :=
  (List.range (r.2 - r.1 + 1).toNat).map fun (i : ℕ) => bestZ (r.1 + (i : ℤ))

/-- The drip-line loop (source lines 263-267 and 273-277): Python
`for A in range(Z, 300)` iterating `A` upward with the remaining iteration
count as fuel, returning `A - 1` at the first `A` whose separation energy is
`≤ 0` and the sentinel `300` when the loop completes. -/
def dripLoop (Z : ℤ) (particle : String) : ℤ → ℕ → Except PyErr ℤ
  | _, 0 => .ok 300
  | A, fuel + 1 => do
      let S ← separation_energyE A Z particle
      if S ≤ 0 then pure (A - 1) else dripLoop Z particle (A + 1) fuel

/-- Embeds `neutron_drip_line` (source lines 260-267). -/
def neutron_drip_lineE (Z : ℤ) : Except PyErr ℤ :=
  dripLoop Z "neutron" Z (300 - Z).toNat

/-- Embeds `proton_drip_line` (source lines 270-277). -/
def proton_drip_lineE (Z : ℤ) : Except PyErr ℤ :=
  dripLoop Z "proton" Z (300 - Z).toNat

/-- The property claimed of each entry of `valley_of_stability`: `z` is the
smallest element of `{1, ..., A - 1}` minimising
`semi_empirical_mass_formula A` over that set (lower `Z` kept on ties). -/
def smallest_minimizer (A z : ℤ) : Prop :=
  1 ≤ z ∧ z ≤ A - 1 ∧
  (∀ w, 1 ≤ w → w ≤ A - 1 →
    semi_empirical_mass_formula A z ≤ semi_empirical_mass_formula A w) ∧
  (∀ w, 1 ≤ w → w ≤ A - 1 → w < z →
    semi_empirical_mass_formula A z < semi_empirical_mass_formula A w)

end

/-! ### The nuclide data repository, source lines 280-303

`get_nuclear_data` returns `NUCLEAR_DATA[nucleus].copy()`.  To make the copy
observable, dictionaries are modelled as heap cells: a `Store` maps addresses
to records and records the next fresh address.  The thirteen records of the
module-level `NUCLEAR_DATA` dict live at addresses `0..12` of the initial
store; `.copy()` allocates a fresh cell holding the looked-up record, and a
caller-side mutation overwrites one cell.  The record fields are the Python
numbers of the table (masses as exact decimal rationals). -/

/-- One record of `NUCLEAR_DATA`: keys `A`, `Z`, `mass`. -/
structure NucRecord where
  A : ℤ
  Z : ℤ
  mass : ℚ
deriving DecidableEq, Inhabited

/-- The entries of `NUCLEAR_DATA` (source lines 280-294), in source order. -/
def NUCLEAR_DATA_entries : List (String × NucRecord) :=
  [("H-1", ⟨1, 1, 1.007825⟩), ("H-2", ⟨2, 1, 2.014102⟩),
   ("H-3", ⟨3, 1, 3.016049⟩), ("He-3", ⟨3, 2, 3.016029⟩),
   ("He-4", ⟨4, 2, 4.002603⟩), ("Li-6", ⟨6, 3, 6.015122⟩),
   ("Li-7", ⟨7, 3, 7.016004⟩), ("C-12", ⟨12, 6, 12.000000⟩),
   ("N-14", ⟨14, 7, 14.003074⟩), ("O-16", ⟨16, 8, 15.994915⟩),
   ("Fe-56", ⟨56, 26, 55.934942⟩), ("U-235", ⟨235, 92, 235.043930⟩),
   ("U-238", ⟨238, 92, 238.050788⟩)]

/-- The keys of `NUCLEAR_DATA`, in source order. -/
def NUCLEAR_DATA_names : List String :=
  NUCLEAR_DATA_entries.map Prod.fst

/-- The address of the record of a given nuclide name in the initial store:
the i-th entry of the table lives at address `i`. -/
def repoAddr (nucleus : String) : Option ℕ :=
  (NUCLEAR_DATA_entries.enum.map fun p => (p.2.1, p.1)).lookup nucleus

/-- A heap of dictionary cells: contents of every address, plus the next
fresh address. -/
structure Store where
  mem : ℕ → NucRecord
  fresh : ℕ

/-- The store at module load: the repository records at addresses `0..12`. -/
def initStore : Store where
  mem := fun a => (((NUCLEAR_DATA_entries.get? a).map Prod.snd).getD default)
  fresh := NUCLEAR_DATA_entries.length

/-- A caller-side mutation of a returned dictionary: overwrite the cell at
address `a` with record `r` (covers any combination of key assignments). -/
def storeSet (σ : Store) (a : ℕ) (r : NucRecord) : Store where
  mem := Function.update σ.mem a r
  fresh := σ.fresh

/-- Embeds `get_nuclear_data` (source lines 297-303): on a known name,
allocate a fresh cell holding a copy of the stored record and return its
address; on an unknown name raise the ValueError listing the known names. -/
def get_nuclear_dataS (σ : Store) (nucleus : String) : Except PyErr (ℕ × Store) :=
  match repoAddr nucleus with
  | some a =>
      .ok (σ.fresh,
        { mem := Function.update σ.mem σ.fresh (σ.mem a), fresh := σ.fresh + 1 })
  | none =>
      .error (.valueError ("Nucleus " ++ nucleus ++ " not found. Available: "
        ++ String.intercalate ", " NUCLEAR_DATA_names))

/-! ### Sanity theorems used while settling claims C1 and C2 -/

/-- Claim C1 (counterexample): at the nuclide `(A, Z) = (1, 0)` the binding
energy `binding_energy_semf 1 0 = -25.75` differs from the signed sum
`-surface_energy - coulomb_energy - asymmetry_energy + pairing_energy
= -41.5`: the sum of the decomposition functions omits the volume term
`15.75 * A`, for which the source has no decomposition function.  (At `Z = 0`
the value of `coulomb_energy` is `0` independently of the physical constants,
so the inequality does not depend on the modelled constant values.) -/
theorem C1_counterexample :
    binding_energy_semf 1 0 ≠
      -surface_energy 1 - coulomb_energy 1 0 - asymmetry_energy 1 0
        + pairing_energy 1 0 := by
  have h1 : ((1 : ℤ) : ℝ) = (1 : ℝ) := by norm_num
  simp only [binding_energy_semf, surface_energy, coulomb_energy,
    asymmetry_energy, pairing_energy, nuclear_radius, h1]
  norm_num [Real.one_rpow, Real.sqrt_one]

/-- Claim C1 (amended): for every `(A, Z)`, `binding_energy_semf A Z` equals
the volume term `15.75 * A`, minus `surface_energy A`, minus the SEMF Coulomb
term `0.711 * Z ^ 2 / A ^ (1/3)`, minus `asymmetry_energy A Z`, plus
`pairing_energy A Z`.  So `surface_energy`, `asymmetry_energy` and
`pairing_energy` each agree numerically with the corresponding term inside
`binding_energy_semf`, while the volume term has no decomposition function
and `coulomb_energy` computes `(3/5) k Z^2 e^2 / R` from physical constants
instead of the SEMF Coulomb term. -/
theorem C1_amended (A Z : ℤ) :
    binding_energy_semf A Z =
      15.75 * (A : ℝ) - surface_energy A
        - 0.711 * (Z : ℝ) ^ 2 / (A : ℝ) ^ ((1 : ℝ) / 3)
        - asymmetry_energy A Z + pairing_energy A Z := rfl

/-- Claim C2: for every valid nuclide (`A ≥ 1`, `0 ≤ Z ≤ A`),
`binding_energy_semf A Z` is the five-term SEMF sum
`15.75 A - 17.8 A^(2/3) - 0.711 Z^2 / A^(1/3) - 23.7 (A - 2Z)^2 / A + delta`
with `delta = 11.18 / sqrt A` for even `Z` and even `N = A - Z`,
`delta = -11.18 / sqrt A` for odd `Z` and odd `N`, and `delta = 0` otherwise
(parity of `Z` and `N` alone selects the branch), and the predicted mass
`semi_empirical_mass_formula A Z` is
`(Z * m_p + (A - Z) * m_n - BE) / u` with `BE` that same sum. -/
theorem C2_semf_formula (A Z : ℤ) (hA : 1 ≤ A) (hZ0 : 0 ≤ Z) (hZA : Z ≤ A) :
    (Z % 2 = 0 → (A - Z) % 2 = 0 →
      binding_energy_semf A Z =
        15.75 * (A : ℝ) - 17.8 * (A : ℝ) ^ ((2 : ℝ) / 3)
          - 0.711 * (Z : ℝ) ^ 2 / (A : ℝ) ^ ((1 : ℝ) / 3)
          - 23.7 * ((A : ℝ) - 2 * (Z : ℝ)) ^ 2 / (A : ℝ)
          + 11.18 / Real.sqrt (A : ℝ)) ∧
    (Z % 2 = 1 → (A - Z) % 2 = 1 →
      binding_energy_semf A Z =
        15.75 * (A : ℝ) - 17.8 * (A : ℝ) ^ ((2 : ℝ) / 3)
          - 0.711 * (Z : ℝ) ^ 2 / (A : ℝ) ^ ((1 : ℝ) / 3)
          - 23.7 * ((A : ℝ) - 2 * (Z : ℝ)) ^ 2 / (A : ℝ)
          - 11.18 / Real.sqrt (A : ℝ)) ∧
    (Z % 2 ≠ (A - Z) % 2 →
      binding_energy_semf A Z =
        15.75 * (A : ℝ) - 17.8 * (A : ℝ) ^ ((2 : ℝ) / 3)
          - 0.711 * (Z : ℝ) ^ 2 / (A : ℝ) ^ ((1 : ℝ) / 3)
          - 23.7 * ((A : ℝ) - 2 * (Z : ℝ)) ^ 2 / (A : ℝ)) ∧
    semi_empirical_mass_formula A Z =
      ((Z : ℝ) * PROTON_MASS_MEV + ((A : ℝ) - (Z : ℝ)) * NEUTRON_MASS_MEV
        - binding_energy_semf A Z) / ATOMIC_MASS_UNIT_MEV := by
  refine ⟨fun h1 h2 => ?_, fun h1 h2 => ?_, fun h => ?_, rfl⟩
  · rw [binding_energy_semf, if_pos ⟨h1, h2⟩]
  · have hne : ¬ (Z % 2 = 0 ∧ (A - Z) % 2 = 0) := by omega
    rw [binding_energy_semf, if_neg hne, if_pos ⟨h1, h2⟩]
    ring
  · have hz : Z % 2 = 0 ∨ Z % 2 = 1 := by omega
    have hne : ¬ (Z % 2 = 0 ∧ (A - Z) % 2 = 0) := by omega
    have hne2 : ¬ (Z % 2 = 1 ∧ (A - Z) % 2 = 1) := by omega
    rw [binding_energy_semf, if_neg hne, if_neg hne2]
    ring

/-- For `A ≥ 1` no arithmetic error occurs and `semfE` returns the pure
binding energy. -/
theorem semfE_ok (A Z : ℤ) (hA : 1 ≤ A) :
    semfE A Z = .ok (binding_energy_semf A Z) := by
  have h1 : ¬ A < 0 := by omega
  have h2 : ¬ A = 0 := by omega
  unfold semfE
  rw [if_neg h1, if_neg h2, if_neg h1, ite_self]

/-- For `A ≥ 1` the mass-formula evaluation succeeds with the pure value. -/
theorem massE_ok (A Z : ℤ) (hA : 1 ≤ A) :
    semi_empirical_mass_formulaE A Z = .ok (semi_empirical_mass_formula A Z) := by
  rw [semi_empirical_mass_formulaE, semfE_ok A Z hA]
  rfl

/-- The only outcomes of `semfE`: the pure value, or one of the three
arithmetic errors.  In particular no ValueError and no "invalid nuclide"
condition is ever produced. -/
theorem semfE_cases (A Z : ℤ) :
    semfE A Z = .ok (binding_energy_semf A Z) ∨
    semfE A Z = .error .sqrtDomain ∨
    semfE A Z = .error .zeroDivision ∨
    semfE A Z = .error .complexPow := by
  unfold semfE
  split
  · split
    · exact Or.inr (Or.inl rfl)
    · split
      · exact Or.inr (Or.inr (Or.inl rfl))
      · exact Or.inl rfl
  · split
    · exact Or.inr (Or.inr (Or.inr rfl))
    · split
      · exact Or.inr (Or.inr (Or.inl rfl))
      · exact Or.inl rfl

/-- Claim C2 (witness): the theorem instantiated at the even-even nuclide
`(A, Z) = (4, 2)`. -/
theorem C2_witness :
    binding_energy_semf 4 2 =
      15.75 * ((4 : ℤ) : ℝ) - 17.8 * ((4 : ℤ) : ℝ) ^ ((2 : ℝ) / 3)
        - 0.711 * ((2 : ℤ) : ℝ) ^ 2 / ((4 : ℤ) : ℝ) ^ ((1 : ℝ) / 3)
        - 23.7 * (((4 : ℤ) : ℝ) - 2 * ((2 : ℤ) : ℝ)) ^ 2 / ((4 : ℤ) : ℝ)
        + 11.18 / Real.sqrt ((4 : ℤ) : ℝ) ∧
    semi_empirical_mass_formula 4 2 =
      (((2 : ℤ) : ℝ) * PROTON_MASS_MEV
        + (((4 : ℤ) : ℝ) - ((2 : ℤ) : ℝ)) * NEUTRON_MASS_MEV
        - binding_energy_semf 4 2) / ATOMIC_MASS_UNIT_MEV := by
  have h := C2_semf_formula 4 2 (by decide) (by decide) (by decide)
  exact ⟨h.1 (by decide) (by decide), h.2.2.2⟩

/-- Claim C3 (counterexample): at `(A, Z) = (0, 2)` both functions fail with
an unguarded ZeroDivisionError from `11.18 / math.sqrt(A)`, not with an
explicit "invalid nuclide" domain-error condition. -/
theorem C3_counterexample :
    semfE 0 2 = .error .zeroDivision ∧
    semi_empirical_mass_formulaE 0 2 = .error .zeroDivision ∧
    semfE 0 2 ≠ .error .invalidNuclide ∧
    semi_empirical_mass_formulaE 0 2 ≠ .error .invalidNuclide := by
  refine ⟨rfl, rfl, ?_, ?_⟩
  · intro h
    rw [show semfE 0 2 = Except.error PyErr.zeroDivision from rfl] at h
    injection h with h2
    exact PyErr.noConfusion h2
  · intro h
    rw [show semi_empirical_mass_formulaE 0 2 = Except.error PyErr.zeroDivision
      from rfl] at h
    injection h with h2
    exact PyErr.noConfusion h2

/-- Claim C3 (amended): for every `A ≤ 0` and any `Z`, `binding_energy_semf`
and `semi_empirical_mass_formula` return no (real) number, but the failure is
an unguarded arithmetic error, never an explicit "invalid nuclide" condition:
ZeroDivisionError at `A = 0`; for `A < 0`, a `math.sqrt` ValueError when `Z`
and `N = A - Z` have equal parity, and otherwise a silent escape into a
complex (non-real) result from `A ** (2/3)`. -/
theorem C3_amended (A Z : ℤ) (hA : A ≤ 0) :
    (∀ x : ℝ, semfE A Z ≠ .ok x ∧ semi_empirical_mass_formulaE A Z ≠ .ok x) ∧
    semfE A Z ≠ .error .invalidNuclide ∧
    semi_empirical_mass_formulaE A Z ≠ .error .invalidNuclide ∧
    (A = 0 → semfE A Z = .error .zeroDivision ∧
      semi_empirical_mass_formulaE A Z = .error .zeroDivision) ∧
    (A < 0 →
      (((Z % 2 = 0 ∧ (A - Z) % 2 = 0) ∨ (Z % 2 = 1 ∧ (A - Z) % 2 = 1)) →
        semfE A Z = .error .sqrtDomain ∧
        semi_empirical_mass_formulaE A Z = .error .sqrtDomain) ∧
      (¬((Z % 2 = 0 ∧ (A - Z) % 2 = 0) ∨ (Z % 2 = 1 ∧ (A - Z) % 2 = 1)) →
        semfE A Z = .error .complexPow ∧
        semi_empirical_mass_formulaE A Z = .error .complexPow)) := by
  have key : ∃ e : PyErr, semfE A Z = .error e ∧ e ≠ .invalidNuclide ∧
      (A = 0 → e = .zeroDivision) ∧
      (A < 0 →
        (((Z % 2 = 0 ∧ (A - Z) % 2 = 0) ∨ (Z % 2 = 1 ∧ (A - Z) % 2 = 1)) →
          e = .sqrtDomain) ∧
        (¬((Z % 2 = 0 ∧ (A - Z) % 2 = 0) ∨ (Z % 2 = 1 ∧ (A - Z) % 2 = 1)) →
          e = .complexPow)) := by
    by_cases hp : (Z % 2 = 0 ∧ (A - Z) % 2 = 0) ∨ (Z % 2 = 1 ∧ (A - Z) % 2 = 1)
    · rcases lt_or_eq_of_le hA with hlt | heq
      · refine ⟨.sqrtDomain, ?_, by simp, by omega, fun _ => ⟨fun _ => rfl, fun hq => absurd hp hq⟩⟩
        rw [semfE, if_pos hp, if_pos hlt]
      · refine ⟨.zeroDivision, ?_, by simp, fun _ => rfl, by omega⟩
        rw [semfE, if_pos hp, if_neg (by omega : ¬ A < 0), if_pos heq]
    · rcases lt_or_eq_of_le hA with hlt | heq
      · refine ⟨.complexPow, ?_, by simp, by omega, fun _ => ⟨fun hq => absurd hq hp, fun _ => rfl⟩⟩
        rw [semfE, if_neg hp, if_pos hlt]
      · refine ⟨.zeroDivision, ?_, by simp, fun _ => rfl, by omega⟩
        rw [semfE, if_neg hp, if_neg (by omega : ¬ A < 0), if_pos heq]
  obtain ⟨e, hsem, hne, h0, hneg⟩ := key
  have hmass : semi_empirical_mass_formulaE A Z = .error e := by
    rw [semi_empirical_mass_formulaE, hsem]
    rfl
  refine ⟨fun x => ⟨by rw [hsem]; simp, by rw [hmass]; simp⟩,
    by rw [hsem]; simp [hne], by rw [hmass]; simp [hne],
    fun h => ⟨by rw [hsem, h0 h], by rw [hmass, h0 h]⟩,
    fun h => ⟨fun hq => ⟨by rw [hsem, (hneg h).1 hq], by rw [hmass, (hneg h).1 hq]⟩,
      fun hq => ⟨by rw [hsem, (hneg h).2 hq], by rw [hmass, (hneg h).2 hq]⟩⟩⟩

/-- Claim C3 (witness): the amended theorem applied at `(A, Z) = (0, 5)`. -/
theorem C3_witness :
    semfE 0 5 = .error .zeroDivision ∧
    semi_empirical_mass_formulaE 0 5 = .error .zeroDivision :=
  (C3_amended 0 5 (by norm_num)).2.2.2.1 rfl

/-- Claim C4 (counterexample): at `(A, Z) = (3, 2)` the beta-plus Q-value of
the source differs from the claimed value, the mass difference converted from
u to MeV minus `2 * m_e` in MeV: the source subtracts `2 * ELECTRON_MASS_MEV`
before multiplying by `ATOMIC_MASS_UNIT_MEV`, so the electron term is scaled
by the u-to-MeV factor as well. -/
theorem C4_counterexample :
    q_value_beta_decay 3 2 "beta+" ≠
      (semi_empirical_mass_formula 3 2 - semi_empirical_mass_formula 3 1)
        * ATOMIC_MASS_UNIT_MEV - 2 * ELECTRON_MASS_MEV := by
  intro h
  rw [q_value_beta_decay, if_neg (by decide), if_pos rfl] at h
  norm_num [ELECTRON_MASS_MEV, ATOMIC_MASS_UNIT_MEV] at h
  linarith

/-- Claim C4 (amended): for every valid `(A, Z)`, the beta-minus Q-value is
the SEMF mass difference `M(A,Z) - M(A,Z+1)` converted from u to MeV, and the
beta-plus Q-value is `(M(A,Z) - M(A,Z-1) - 2 * m_e(MeV))` multiplied by the
u-to-MeV factor, the electron term being subtracted before the conversion.
Stated on the error-aware layer: for `A ≥ 1` the evaluation succeeds and
returns exactly these values. -/
theorem C4_amended (A Z : ℤ) (hA : 1 ≤ A) (hZ0 : 0 ≤ Z) (hZA : Z ≤ A) :
    q_value_beta_decayE A Z "beta-" =
      .ok ((semi_empirical_mass_formula A Z
        - semi_empirical_mass_formula A (Z + 1)) * ATOMIC_MASS_UNIT_MEV) ∧
    q_value_beta_decayE A Z "beta+" =
      .ok ((semi_empirical_mass_formula A Z
        - semi_empirical_mass_formula A (Z - 1)
        - 2 * ELECTRON_MASS_MEV) * ATOMIC_MASS_UNIT_MEV) := by
  constructor
  · rw [q_value_beta_decayE, if_pos rfl, massE_ok A Z hA, massE_ok A (Z + 1) hA]
    rfl
  · rw [q_value_beta_decayE, if_neg (by decide), if_pos rfl,
      massE_ok A Z hA, massE_ok A (Z - 1) hA]
    rfl

/-- Claim C4 (witness): the amended theorem applied at `(A, Z) = (10, 5)`. -/
theorem C4_witness :
    q_value_beta_decayE 10 5 "beta-" =
      .ok ((semi_empirical_mass_formula 10 5
        - semi_empirical_mass_formula 10 (5 + 1)) * ATOMIC_MASS_UNIT_MEV) ∧
    q_value_beta_decayE 10 5 "beta+" =
      .ok ((semi_empirical_mass_formula 10 5
        - semi_empirical_mass_formula 10 (5 - 1)
        - 2 * ELECTRON_MASS_MEV) * ATOMIC_MASS_UNIT_MEV) :=
  C4_amended 10 5 (by norm_num) (by norm_num) (by norm_num)

/-- Claim C5: for every valid `(A, Z)`, the separation energies are the
binding-energy differences of the source formulas: `S_n = BE(A,Z) -
BE(A-1,Z)`, `S_p = BE(A,Z) - BE(A-1,Z-1)`, `S_alpha = BE(A,Z) - BE(A-4,Z-2)
- 28.3`, and `S_2n = BE(A,Z) - BE(A-2,Z)`. -/
theorem C5_separation (A Z : ℤ) (hA : 1 ≤ A) (hZ0 : 0 ≤ Z) (hZA : Z ≤ A) :
    separation_energy A Z "neutron" =
      binding_energy_semf A Z - binding_energy_semf (A - 1) Z ∧
    separation_energy A Z "proton" =
      binding_energy_semf A Z - binding_energy_semf (A - 1) (Z - 1) ∧
    separation_energy A Z "alpha" =
      binding_energy_semf A Z - binding_energy_semf (A - 4) (Z - 2) - 28.3 ∧
    two_neutron_separation_energy A Z =
      binding_energy_semf A Z - binding_energy_semf (A - 2) Z :=
  ⟨rfl, rfl, rfl, rfl⟩

/-- Claim C5 (witness): the theorem applied at `(A, Z) = (10, 5)`. -/
theorem C5_witness :
    separation_energy 10 5 "neutron" =
      binding_energy_semf 10 5 - binding_energy_semf 9 5 ∧
    separation_energy 10 5 "proton" =
      binding_energy_semf 10 5 - binding_energy_semf 9 4 ∧
    separation_energy 10 5 "alpha" =
      binding_energy_semf 10 5 - binding_energy_semf 6 3 - 28.3 ∧
    two_neutron_separation_energy 10 5 =
      binding_energy_semf 10 5 - binding_energy_semf 8 5 :=
  C5_separation 10 5 (by norm_num) (by norm_num) (by norm_num)

/-- `semfE` never produces an explicit ValueError: its only failures are the
three arithmetic errors. -/
theorem semfE_not_valueError (A Z : ℤ) (msg : String) :
    semfE A Z ≠ .error (.valueError msg) := by
  rcases semfE_cases A Z with h | h | h | h <;> rw [h] <;> intro hc <;>
    first
      | exact Except.noConfusion hc
      | · injection hc with hc2
          exact PyErr.noConfusion hc2

/-- `semi_empirical_mass_formulaE` never produces an explicit ValueError. -/
theorem massE_not_valueError (A Z : ℤ) (msg : String) :
    semi_empirical_mass_formulaE A Z ≠ .error (.valueError msg) := by
  rcases semfE_cases A Z with h | h | h | h <;>
    rw [semi_empirical_mass_formulaE, h] <;> intro hc <;>
    first
      | exact Except.noConfusion hc
      | · injection hc with hc2
          exact PyErr.noConfusion hc2

/-- Sequencing two computations that cannot fail with a ValueError and
finishing with `pure` cannot produce a ValueError either. -/
theorem bind2_no_valueError (B C : Except PyErr ℝ) (f : ℝ → ℝ → ℝ)
    (hB : ∀ mg, B ≠ .error (.valueError mg))
    (hC : ∀ mg, C ≠ .error (.valueError mg)) (msg : String) :
    (do
      let b ← B
      let c ← C
      pure (f b c) : Except PyErr ℝ) ≠ .error (.valueError msg) := by
  cases B with
  | error e => exact fun h => hB msg h
  | ok b =>
      cases C with
      | error e => exact fun h => hC msg h
      | ok c => exact fun h => Except.noConfusion h

/-- Claim C8: unrecognised particle strings make `separation_energy` raise a
ValueError naming the string, unrecognised decay-mode strings make
`q_value_beta_decay` raise a ValueError naming the string, and the recognised
strings never produce such an unsupported-option error. -/
theorem C8_unknown_options (A Z : ℤ) (s m : String) :
    (s ≠ "neutron" → s ≠ "proton" → s ≠ "alpha" →
      separation_energyE A Z s =
        .error (.valueError ("Unknown particle type: " ++ s))) ∧
    ((s = "neutron" ∨ s = "proton" ∨ s = "alpha") →
      ∀ msg, separation_energyE A Z s ≠ .error (.valueError msg)) ∧
    (m ≠ "beta-" → m ≠ "beta+" →
      q_value_beta_decayE A Z m =
        .error (.valueError ("Unknown decay type: " ++ m))) ∧
    ((m = "beta-" ∨ m = "beta+") →
      ∀ msg, q_value_beta_decayE A Z m ≠ .error (.valueError msg)) := by
  refine ⟨fun h1 h2 h3 => ?_, fun hs msg => ?_, fun h1 h2 => ?_, fun hm msg => ?_⟩
  · rw [separation_energyE, if_neg h1, if_neg h2, if_neg h3]
  · rcases hs with rfl | rfl | rfl
    · rw [separation_energyE, if_pos rfl]
      exact bind2_no_valueError _ _ (fun b c => b - c)
        (semfE_not_valueError A Z) (semfE_not_valueError (A - 1) Z) msg
    · rw [separation_energyE, if_neg (by decide), if_pos rfl]
      exact bind2_no_valueError _ _ (fun b c => b - c)
        (semfE_not_valueError A Z) (semfE_not_valueError (A - 1) (Z - 1)) msg
    · rw [separation_energyE, if_neg (by decide), if_neg (by decide), if_pos rfl]
      exact bind2_no_valueError _ _ (fun b c => b - c - 28.3)
        (semfE_not_valueError A Z) (semfE_not_valueError (A - 4) (Z - 2)) msg
  · rw [q_value_beta_decayE, if_neg h1, if_neg h2]
  · rcases hm with rfl | rfl
    · rw [q_value_beta_decayE, if_pos rfl]
      exact bind2_no_valueError _ _
        (fun b c => (b - c) * ATOMIC_MASS_UNIT_MEV)
        (massE_not_valueError A Z) (massE_not_valueError A (Z + 1)) msg
    · rw [q_value_beta_decayE, if_neg (by decide), if_pos rfl]
      exact bind2_no_valueError _ _
        (fun b c => (b - c - 2 * ELECTRON_MASS_MEV) * ATOMIC_MASS_UNIT_MEV)
        (massE_not_valueError A Z) (massE_not_valueError A (Z - 1)) msg

/-- Claim C8 (witness): the theorem applied at `(A, Z) = (10, 5)` with the
unknown string `"gamma"`, the known strings `"neutron"` and `"beta-"`, and
the concrete message `"boom"`. -/
theorem C8_witness :
    separation_energyE 10 5 "gamma" =
      .error (.valueError ("Unknown particle type: " ++ "gamma")) ∧
    separation_energyE 10 5 "neutron" ≠ .error (.valueError "boom") ∧
    q_value_beta_decayE 10 5 "gamma" =
      .error (.valueError ("Unknown decay type: " ++ "gamma")) ∧
    q_value_beta_decayE 10 5 "beta-" ≠ .error (.valueError "boom") :=
  ⟨(C8_unknown_options 10 5 "gamma" "gamma").1 (by decide) (by decide) (by decide),
   (C8_unknown_options 10 5 "neutron" "x").2.1 (Or.inl rfl) "boom",
   (C8_unknown_options 10 5 "x" "gamma").2.2.1 (by decide) (by decide),
   (C8_unknown_options 10 5 "x" "beta-").2.2.2 (Or.inl rfl) "boom"⟩

/-- Claim C9: `neutron_drip_line(1)` and `proton_drip_line(1)` return no
drip-line value: the first scan step `A = Z = 1` evaluates
`binding_energy_semf` at mass number `0` — `(0, 1)` for the neutron case,
`(0, 0)` for the proton case — whose pairing branch divides by `sqrt(0)`, so
the call dies with an unguarded ZeroDivisionError; for every `Z ≥ 2` the
first scan step evaluates `binding_energy_semf` only at mass numbers `≥ 1`
and succeeds with the pure separation-energy value. -/
theorem C9_drip_line_z1 :
    neutron_drip_lineE 1 = .error .zeroDivision ∧
    proton_drip_lineE 1 = .error .zeroDivision ∧
    semfE 0 1 = .error .zeroDivision ∧
    semfE 0 0 = .error .zeroDivision ∧
    (∀ Z : ℤ, 2 ≤ Z →
      separation_energyE Z Z "neutron" =
        .ok (binding_energy_semf Z Z - binding_energy_semf (Z - 1) Z) ∧
      separation_energyE Z Z "proton" =
        .ok (binding_energy_semf Z Z - binding_energy_semf (Z - 1) (Z - 1))) := by
  refine ⟨rfl, rfl, rfl, rfl, fun Z hZ => ⟨?_, ?_⟩⟩
  · rw [separation_energyE, if_pos rfl, semfE_ok Z Z (by omega),
      semfE_ok (Z - 1) Z (by omega)]
    rfl
  · rw [separation_energyE, if_neg (by decide), if_pos rfl,
      semfE_ok Z Z (by omega), semfE_ok (Z - 1) (Z - 1) (by omega)]
    rfl

/-- Claim C9 (witness): the universal part of the theorem applied at
`Z = 5`. -/
theorem C9_witness :
    separation_energyE 5 5 "neutron" =
      .ok (binding_energy_semf 5 5 - binding_energy_semf (5 - 1) 5) ∧
    separation_energyE 5 5 "proton" =
      .ok (binding_energy_semf 5 5 - binding_energy_semf (5 - 1) (5 - 1)) :=
  C9_drip_line_z1.2.2.2.2 5 (by norm_num)

/-- For `A ≥ 2` the neutron-separation evaluation succeeds with the pure
value. -/
theorem sepE_neutron_ok (A Z : ℤ) (h1 : 1 ≤ A) (h2 : 1 ≤ A - 1) :
    separation_energyE A Z "neutron" = .ok (separation_energy A Z "neutron") := by
  rw [separation_energyE, if_pos rfl, semfE_ok A Z h1, semfE_ok (A - 1) Z h2]
  rfl

/-- For `A ≥ 2`, `Z ≥ 2` the proton-separation evaluation succeeds with the
pure value. -/
theorem sepE_proton_ok (A Z : ℤ) (h1 : 1 ≤ A) (h2 : 1 ≤ A - 1) :
    separation_energyE A Z "proton" = .ok (separation_energy A Z "proton") := by
  rw [separation_energyE, if_neg (by decide), if_pos rfl, semfE_ok A Z h1,
    semfE_ok (A - 1) (Z - 1) h2]
  rfl

/-- Behaviour of the drip-line scan loop: provided every scanned step
evaluates without an arithmetic error, the loop returns the sentinel `300`
when every scanned separation energy is positive, and returns `Astar - 1` at
the first scanned `Astar` whose separation energy is `≤ 0`. -/
theorem dripLoop_spec (Z : ℤ) (p : String) :
    ∀ (fuel : ℕ) (A : ℤ),
      (∀ B, A ≤ B → B < A + (fuel : ℤ) →
        separation_energyE B Z p = .ok (separation_energy B Z p)) →
      ((∀ B, A ≤ B → B < A + (fuel : ℤ) → 0 < separation_energy B Z p) →
        dripLoop Z p A fuel = .ok 300) ∧
      (∀ Astar, A ≤ Astar → Astar < A + (fuel : ℤ) →
        separation_energy Astar Z p ≤ 0 →
        (∀ B, A ≤ B → B < Astar → 0 < separation_energy B Z p) →
        dripLoop Z p A fuel = .ok (Astar - 1)) := by
  intro fuel
  induction fuel with
  | zero =>
      intro A hok
      exact ⟨fun _ => rfl, fun Astar h1 h2 => by omega⟩
  | succ n ih =>
      intro A hok
      have hA : separation_energyE A Z p = .ok (separation_energy A Z p) :=
        hok A le_rfl (by omega)
      have hok2 : ∀ B, A + 1 ≤ B → B < A + 1 + (n : ℤ) →
          separation_energyE B Z p = .ok (separation_energy B Z p) :=
        fun B hb1 hb2 => hok B (by omega) (by omega)
      have hstep : dripLoop Z p A (n + 1) =
          (if separation_energy A Z p ≤ 0 then pure (A - 1)
           else dripLoop Z p (A + 1) n : Except PyErr ℤ) := by
        rw [dripLoop, hA]
        rfl
      constructor
      · intro hpos
        rw [hstep, if_neg (not_le.mpr (hpos A le_rfl (by omega)))]
        exact (ih (A + 1) hok2).1 fun B hb1 hb2 => hpos B (by omega) (by omega)
      · intro Astar h1 h2 h3 h4
        rcases eq_or_lt_of_le h1 with rfl | hlt
        · rw [hstep, if_pos h3]
          rfl
        · rw [hstep, if_neg (not_le.mpr (h4 A le_rfl hlt))]
          exact (ih (A + 1) hok2).2 Astar (by omega) (by omega) h3
            fun B hb1 hb2 => h4 B (by omega) hb2

/-- Claim C7 (counterexample): at `Z = 1` the proton drip-line search does
not return any value — the very first scan step divides by zero — so the
claimed behaviour "for every Z ... returns ..." fails. -/
theorem C7_counterexample :
    proton_drip_lineE 1 = .error .zeroDivision ∧
    ∀ x : ℤ, proton_drip_lineE 1 ≠ .ok x := by
  refine ⟨rfl, fun x h => ?_⟩
  rw [show proton_drip_lineE 1 = Except.error PyErr.zeroDivision from rfl] at h
  exact Except.noConfusion h

/-- Claim C7 (amended): for every `Z ≥ 2`, the drip-line searches scan `A`
upward from `A = Z` and return `Astar - 1` at the smallest scanned
`Astar ≤ 299` whose separation energy is `≤ 0`, and return the sentinel `300`
when the separation energy stays positive for every scanned `A ≤ 299`
(reaching the ceiling returns the sentinel rather than failing).  For
`Z ≤ 1` the search instead dies with a ZeroDivisionError (claim C9). -/
theorem C7_amended (Z : ℤ) (hZ : 2 ≤ Z) :
    ((∀ A, Z ≤ A → A ≤ 299 → 0 < separation_energy A Z "neutron") →
      neutron_drip_lineE Z = .ok 300) ∧
    (∀ Astar, Z ≤ Astar → Astar ≤ 299 →
      separation_energy Astar Z "neutron" ≤ 0 →
      (∀ A, Z ≤ A → A < Astar → 0 < separation_energy A Z "neutron") →
      neutron_drip_lineE Z = .ok (Astar - 1)) ∧
    ((∀ A, Z ≤ A → A ≤ 299 → 0 < separation_energy A Z "proton") →
      proton_drip_lineE Z = .ok 300) ∧
    (∀ Astar, Z ≤ Astar → Astar ≤ 299 →
      separation_energy Astar Z "proton" ≤ 0 →
      (∀ A, Z ≤ A → A < Astar → 0 < separation_energy A Z "proton") →
      proton_drip_lineE Z = .ok (Astar - 1)) := by
  have hn := dripLoop_spec Z "neutron" (300 - Z).toNat Z
    (fun B h1 h2 => sepE_neutron_ok B Z (by omega) (by omega))
  have hp := dripLoop_spec Z "proton" (300 - Z).toNat Z
    (fun B h1 h2 => sepE_proton_ok B Z (by omega) (by omega))
  exact ⟨fun hpos => hn.1 fun B h1 h2 => hpos B h1 (by omega),
    fun Astar h1 h2 h3 h4 => hn.2 Astar h1 (by omega) h3 h4,
    fun hpos => hp.1 fun B h1 h2 => hpos B h1 (by omega),
    fun Astar h1 h2 h3 h4 => hp.2 Astar h1 (by omega) h3 h4⟩

/-- Claim C7 (witness): the amended theorem applied at `Z = 8`. -/
theorem C7_witness :
    ((∀ A, 8 ≤ A → A ≤ 299 → 0 < separation_energy A 8 "neutron") →
      neutron_drip_lineE 8 = .ok 300) ∧
    (∀ Astar, 8 ≤ Astar → Astar ≤ 299 →
      separation_energy Astar 8 "neutron" ≤ 0 →
      (∀ A, 8 ≤ A → A < Astar → 0 < separation_energy A 8 "neutron") →
      neutron_drip_lineE 8 = .ok (Astar - 1)) ∧
    ((∀ A, 8 ≤ A → A ≤ 299 → 0 < separation_energy A 8 "proton") →
      proton_drip_lineE 8 = .ok 300) ∧
    (∀ Astar, 8 ≤ Astar → Astar ≤ 299 →
      separation_energy Astar 8 "proton" ≤ 0 →
      (∀ A, 8 ≤ A → A < Astar → 0 < separation_energy A 8 "proton") →
      proton_drip_lineE 8 = .ok (Astar - 1)) :=
  C7_amended 8 (by norm_num)

/-- Membership in the scanned `Z` list: exactly the integers of
`{1, ..., A - 1}`. -/
theorem zRange_mem {A x : ℤ} : x ∈ zRange A ↔ 1 ≤ x ∧ x ≤ A - 1 := by
  rw [zRange, List.mem_map]
  constructor
  · rintro ⟨i, hi, rfl⟩
    rw [List.mem_range] at hi
    omega
  · rintro ⟨h1, h2⟩
    refine ⟨(x - 1).toNat, ?_, by omega⟩
    rw [List.mem_range]
    omega

/-- The scanned `Z` list is strictly increasing. -/
theorem zRange_sorted (A : ℤ) : (zRange A).Pairwise (· < ·) := by
  rw [zRange, List.pairwise_map]
  exact (List.pairwise_lt_range _).imp fun h => by omega

/-- Invariant of the inner fold of `valley_of_stability`, starting from a
state whose recorded minimum is the mass of the recorded best `Z`: the final
state is again of that shape, its mass is a minimum of the scanned masses,
and the final best `Z` is either the initial one (when no scanned mass is
strictly smaller) or the first scanned element realising a strict
improvement. -/
theorem valleyFold_spec (A : ℤ) :
    ∀ (l : List ℤ) (b : ℤ),
      ∃ c : ℤ,
        l.foldl (valleyStep A) (b, some (semi_empirical_mass_formula A b)) =
          (c, some (semi_empirical_mass_formula A c)) ∧
        semi_empirical_mass_formula A c ≤ semi_empirical_mass_formula A b ∧
        (∀ x ∈ l,
          semi_empirical_mass_formula A c ≤ semi_empirical_mass_formula A x) ∧
        ((c = b ∧ ∀ x ∈ l,
            ¬ semi_empirical_mass_formula A x < semi_empirical_mass_formula A b) ∨
         (∃ l1 l2, l = l1 ++ c :: l2 ∧
            semi_empirical_mass_formula A c < semi_empirical_mass_formula A b ∧
            ∀ x ∈ l1,
              semi_empirical_mass_formula A c < semi_empirical_mass_formula A x)) := by
  intro l
  induction l with
  | nil =>
      intro b
      exact ⟨b, rfl, le_rfl, by simp, Or.inl ⟨rfl, by simp⟩⟩
  | cons x t ih =>
      intro b
      by_cases h :
        semi_empirical_mass_formula A x < semi_empirical_mass_formula A b
      · have hstep : valleyStep A (b, some (semi_empirical_mass_formula A b)) x =
            (x, some (semi_empirical_mass_formula A x)) := by
          simp only [valleyStep]
          rw [if_pos h]
        obtain ⟨c, hfold, hle, hall, hcase⟩ := ih x
        refine ⟨c, by rw [List.foldl_cons, hstep]; exact hfold,
          (hle.trans_lt h).le, ?_, Or.inr ?_⟩
        · intro y hy
          rcases List.mem_cons.mp hy with rfl | hy2
          · exact hle
          · exact hall y hy2
        · rcases hcase with ⟨rfl, hnone⟩ | ⟨l1, l2, heq, hlt2, hstrict⟩
          · exact ⟨[], t, rfl, hle.trans_lt h, by simp⟩
          · refine ⟨x :: l1, l2, by rw [heq, List.cons_append], hlt2.trans h, ?_⟩
            intro y hy
            rcases List.mem_cons.mp hy with rfl | hy2
            · exact hlt2
            · exact hstrict y hy2
      · have hstep : valleyStep A (b, some (semi_empirical_mass_formula A b)) x =
            (b, some (semi_empirical_mass_formula A b)) := by
          simp only [valleyStep]
          rw [if_neg h]
        obtain ⟨c, hfold, hle, hall, hcase⟩ := ih b
        refine ⟨c, by rw [List.foldl_cons, hstep]; exact hfold, hle, ?_, ?_⟩
        · intro y hy
          rcases List.mem_cons.mp hy with rfl | hy2
          · exact hle.trans (not_lt.mp h)
          · exact hall y hy2
        · rcases hcase with ⟨rfl, hnone⟩ | ⟨l1, l2, heq, hlt2, hstrict⟩
          · refine Or.inl ⟨rfl, ?_⟩
            intro y hy
            rcases List.mem_cons.mp hy with rfl | hy2
            · exact h
            · exact hnone y hy2
          · refine Or.inr ⟨x :: l1, l2, by rw [heq, List.cons_append], hlt2, ?_⟩
            intro y hy
            rcases List.mem_cons.mp hy with rfl | hy2
            · exact hlt2.trans_le (not_lt.mp h)
            · exact hstrict y hy2

/-- For `A ≥ 2` the inner scan of `valley_of_stability` returns the smallest
minimiser of the predicted mass over `{1, ..., A - 1}`. -/
theorem bestZ_spec (A : ℤ) (hA : 2 ≤ A) : smallest_minimizer A (bestZ A) := by
  cases hzr : zRange A with
  | nil =>
      exfalso
      have h1m : (1 : ℤ) ∈ zRange A := zRange_mem.mpr ⟨le_rfl, by omega⟩
      rw [hzr] at h1m
      exact List.not_mem_nil 1 h1m
  | cons x t =>
      have hx1 : x = 1 := by
        have h1m : (1 : ℤ) ∈ zRange A := zRange_mem.mpr ⟨le_rfl, by omega⟩
        have hxm : x ∈ zRange A := by
          rw [hzr]
          exact List.mem_cons_self x t
        have hx_ge : 1 ≤ x := (zRange_mem.mp hxm).1
        rw [hzr] at h1m
        rcases List.mem_cons.mp h1m with h | h
        · omega
        · have hp := zRange_sorted A
          rw [hzr] at hp
          have := (List.pairwise_cons.mp hp).1 1 h
          omega
      subst hx1
      have hpt : t.Pairwise (· < ·) := by
        have hp := zRange_sorted A
        rw [hzr] at hp
        exact (List.pairwise_cons.mp hp).2
      have hmemt : ∀ y, y ∈ t → y ∈ zRange A := by
        intro y hy
        rw [hzr]
        exact List.mem_cons_of_mem 1 hy
      obtain ⟨c, hfold, hle, hall, hcase⟩ := valleyFold_spec A t 1
      have hbz : bestZ A = c := by
        rw [bestZ, hzr, List.foldl_cons]
        show (t.foldl (valleyStep A)
          (1, some (semi_empirical_mass_formula A 1))).1 = c
        rw [hfold]
      rw [hbz]
      have hcmem : 1 ≤ c ∧ c ≤ A - 1 := by
        rcases hcase with ⟨rfl, _⟩ | ⟨l1, l2, heq, _, _⟩
        · exact ⟨le_rfl, by omega⟩
        · have : c ∈ zRange A := hmemt c (by rw [heq]; simp)
          exact zRange_mem.mp this
      refine ⟨hcmem.1, hcmem.2, ?_, ?_⟩
      · intro w hw1 hw2
        have hwm : w ∈ zRange A := zRange_mem.mpr ⟨hw1, hw2⟩
        rw [hzr] at hwm
        rcases List.mem_cons.mp hwm with rfl | hwt
        · exact hle
        · exact hall w hwt
      · intro w hw1 hw2 hwc
        have hwm : w ∈ zRange A := zRange_mem.mpr ⟨hw1, hw2⟩
        rw [hzr] at hwm
        rcases hcase with ⟨rfl, hnone⟩ | ⟨l1, l2, heq, hlt1, hstrict⟩
        · omega
        · rcases List.mem_cons.mp hwm with rfl | hwt
          · exact hlt1
          · rw [heq] at hwt
            rcases List.mem_append.mp hwt with hw_in | hw_in
            · exact hstrict w hw_in
            · rcases List.mem_cons.mp hw_in with rfl | hw_in2
              · omega
              · exfalso
                have hptt := hpt
                rw [heq] at hptt
                have := ((List.pairwise_cons.mp
                  (List.pairwise_append.mp hptt).2.1).1) w hw_in2
                omega

/-- Claim C6 (counterexample): on the inclusive range `(1, 1)` the function
returns the single entry `1` — the loop initialisation value `best_Z = 1` —
but the scanned set `{1, ..., A - 1} = {1, ..., 0}` is empty, so that entry
is not "the smallest Z in `{1, ..., A-1}` minimising the predicted mass over
that set": no such Z exists (in particular `1 ≤ A - 1` fails), refuting the
claim for ranges that contain a mass number `A ≤ 1`. -/
theorem C6_counterexample :
    valley_of_stability (1, 1) = [1] ∧ ¬ smallest_minimizer 1 1 := by
  refine ⟨rfl, fun h => ?_⟩
  have h21 := h.2.1
  omega

/-- Claim C6 (amended): for every inclusive range `(A_min, A_max)` with
`2 ≤ A_min ≤ A_max`, `valley_of_stability` returns a sequence of length
`A_max - A_min + 1` whose entry at index `A - A_min` is the smallest `Z` in
`{1, ..., A - 1}` minimising `semi_empirical_mass_formula A` over that set
(the lower `Z` kept on ties); for `A ≤ 1` the scanned set is empty and the
entry is the initialisation value `1`. -/
theorem C6_amended (Amin Amax : ℤ) (h2 : 2 ≤ Amin) (hle : Amin ≤ Amax) :
    ((valley_of_stability (Amin, Amax)).length : ℤ) = Amax - Amin + 1 ∧
    ∀ (k : ℕ) (hk : k < (valley_of_stability (Amin, Amax)).length),
      smallest_minimizer (Amin + k)
        ((valley_of_stability (Amin, Amax)).get ⟨k, hk⟩) := by
  constructor
  · rw [valley_of_stability, List.length_map, List.length_range]
    omega
  · intro k hk
    have hget : (valley_of_stability (Amin, Amax)).get ⟨k, hk⟩ =
        bestZ (Amin + k) := by
      simp only [valley_of_stability, List.get_eq_getElem, List.getElem_map,
        List.getElem_range]
    rw [hget]
    exact bestZ_spec (Amin + k) (by omega)

/-- Claim C6 (witness): the amended theorem applied to the range `(4, 4)`. -/
theorem C6_witness :
    ((valley_of_stability (4, 4)).length : ℤ) = 4 - 4 + 1 ∧
    ∀ (k : ℕ) (hk : k < (valley_of_stability (4, 4)).length),
      smallest_minimizer (4 + k) ((valley_of_stability (4, 4)).get ⟨k, hk⟩) :=
  C6_amended 4 4 (by norm_num) (by norm_num)

/-- Every name of the repository resolves to an address below the number of
stored records. -/
theorem repoAddr_known (name : String) (h : name ∈ NUCLEAR_DATA_names) :
    ∃ a, repoAddr name = some a ∧ a < NUCLEAR_DATA_entries.length := by
  simp only [NUCLEAR_DATA_names, NUCLEAR_DATA_entries, List.map_cons,
    List.map_nil, List.mem_cons, List.not_mem_nil, or_false] at h
  rcases h with rfl | rfl | rfl | rfl | rfl | rfl | rfl | rfl | rfl | rfl |
    rfl | rfl | rfl <;>
    exact ⟨_, rfl, by decide⟩

/-- Claim C10: `get_nuclear_data` hands out a fresh copy of the stored
record: the first call on a known name succeeds; whatever record `r` the
caller then writes over the returned cell, the repository cells are unchanged
and a second call returns a record equal to the first one. -/
theorem C10_copy_semantics (name : String) (h : name ∈ NUCLEAR_DATA_names)
    (r : NucRecord) :
    (∃ p, get_nuclear_dataS initStore name = .ok p) ∧
    ∀ a1 σ1, get_nuclear_dataS initStore name = .ok (a1, σ1) →
      ∀ a2 σ2, get_nuclear_dataS (storeSet σ1 a1 r) name = .ok (a2, σ2) →
        σ2.mem a2 = σ1.mem a1 ∧
        ∀ i, i < initStore.fresh →
          (storeSet σ1 a1 r).mem i = initStore.mem i := by
  obtain ⟨a, ha, halen⟩ := repoAddr_known name h
  have hfresh : initStore.fresh = NUCLEAR_DATA_entries.length := rfl
  have haF : a ≠ initStore.fresh := by omega
  constructor
  · exact ⟨(initStore.fresh, _), by rw [get_nuclear_dataS, ha]⟩
  · intro a1 σ1 h1 a2 σ2 hget2
    rw [get_nuclear_dataS, ha] at h1
    injection h1 with h1
    injection h1 with h1a h1b
    rw [get_nuclear_dataS, ha] at hget2
    injection hget2 with hget2
    injection hget2 with h2a h2b
    have hσ1mem : σ1.mem =
        Function.update initStore.mem initStore.fresh (initStore.mem a) := by
      rw [← h1b]
    have hσ1fresh : σ1.fresh = initStore.fresh + 1 := by
      rw [← h1b]
    have ha1 : a1 = initStore.fresh := h1a.symm
    have hS2mem : (storeSet σ1 a1 r).mem = Function.update σ1.mem a1 r := rfl
    have hS2fresh : (storeSet σ1 a1 r).fresh = σ1.fresh := rfl
    have ha2 : a2 = σ1.fresh := by rw [← h2a, hS2fresh]
    have hσ2mem : σ2.mem =
        Function.update (storeSet σ1 a1 r).mem (storeSet σ1 a1 r).fresh
          ((storeSet σ1 a1 r).mem a) := by
      rw [← h2b]
    have haa1 : a ≠ a1 := by rw [ha1]; exact haF
    constructor
    · rw [hσ2mem, hS2mem, hS2fresh, ha2, Function.update_same,
        Function.update_noteq haa1, hσ1mem, Function.update_noteq haF,
        ha1, Function.update_same]
    · intro i hi
      have hiF : i ≠ a1 := by rw [ha1]; omega
      rw [hS2mem, Function.update_noteq hiF, hσ1mem,
        Function.update_noteq (by rw [ha1] at hiF; exact hiF)]

/-- Claim C10 (witness): the theorem applied to the name `"He-4"` and the
caller-side overwrite `⟨0, 0, 0⟩`. -/
theorem C10_witness :
    (∃ p, get_nuclear_dataS initStore "He-4" = .ok p) ∧
    ∀ a1 σ1, get_nuclear_dataS initStore "He-4" = .ok (a1, σ1) →
      ∀ a2 σ2, get_nuclear_dataS (storeSet σ1 a1 ⟨0, 0, 0⟩) "He-4" = .ok (a2, σ2) →
        σ2.mem a2 = σ1.mem a1 ∧
        ∀ i, i < initStore.fresh →
          (storeSet σ1 a1 ⟨0, 0, 0⟩).mem i = initStore.mem i :=
  C10_copy_semantics "He-4" (by decide) ⟨0, 0, 0⟩
